import Mathlib

/-!
Shallow embedding of the bitcoin-block-verify repository
(`src/methods/src/main.rs`, `src/apps/src/main.rs`,
`src/methods/guest/src/bin/bitcoin_block_verify.rs`, `src/bonsai-sdk/src/lib.rs`)
with theorems settling the behavioural claims about it.

External crates (risc0 zkvm, bitcoin_spv, reqwest, bincode internals) are
consumed as opaque capabilities by the repository and are modelled here as
abstract function parameters, except where the spec pins their interface
behaviour down (those definitions carry a `Modelled from the spec:` note).
-/

namespace BBV

/-- Bytes are naturals; every byte this development builds is below 256. -/
abbrev Byte := Nat

/-! ## Hex decoding — the `hex` crate's `hex::decode`.
Accepts both upper- and lower-case digits, requires an even number of
characters, and maps each pair of digits to one byte. -/

/-- Value of a single hex digit, `none` when the character is not a hex digit. -/
def hexDigitVal (c : Char) : Option Nat :=
  if '0' ≤ c ∧ c ≤ '9' then some (c.toNat - '0'.toNat)
  else if 'a' ≤ c ∧ c ≤ 'f' then some (c.toNat - 'a'.toNat + 10)
  else if 'A' ≤ c ∧ c ≤ 'F' then some (c.toNat - 'A'.toNat + 10)
  else none

/-- `hex::decode`: pairs of hex digits to bytes; fails on an odd length or a
non-hex character. -/
def hexDecode : List Char → Option (List Byte)
  | [] => some []
  | [_] => none
  | c1 :: c2 :: rest =>
    match hexDigitVal c1, hexDigitVal c2, hexDecode rest with
    | some hi, some lo, some tail => some ((hi * 16 + lo) :: tail)
    | _, _, _ => none

/-- Rust's `trim_start_matches("0x")`: removes every leading occurrence of
the two-character pattern `0x`. -/
def trim0x : List Char → List Char
  | '0' :: 'x' :: rest => trim0x rest
  | l => l

/-- Rust's `str::to_lowercase`, character-wise (the queries at hand are ASCII). -/
def toLowerChars (l : List Char) : List Char := l.map Char.toLower

/-- Rust's `str::to_uppercase`, character-wise (the names at hand are ASCII). -/
def toUpperChars (l : List Char) : List Char := l.map Char.toUpper

/-! ## Program registry resolution — `src/methods/src/main.rs`, `main`,
lines 82-94. -/

/-- One entry of the generated `GUEST_LIST`.  The `[u32; 8]` image id of the
Rust code is represented directly through its `bytemuck`-cast 32-byte view,
which is the only view the resolution code compares. -/
structure GuestEntry where
  name : List Char
  imageId : List Byte
  elf : List Byte
  path : List Char

/-- The all-zero 32-byte image id that `main` falls back to when the query
does not hex-decode to exactly 32 bytes. -/
def zeroImageId : List Byte := List.replicate 32 0

/-- `potential_guest_image_id` of `main`: lower-case the query, strip leading
`0x`, hex-decode; a decode failure or a byte count other than 32 falls back
to the all-zero digest (`unwrap_or([0u8; 32])`). -/
def potentialGuestImageId (guestBinary : List Char) : List Byte :=
  match hexDecode (trim0x (toLowerChars guestBinary)) with
  | some bytes => if bytes.length = 32 then bytes else zeroImageId
  | none => zeroImageId

/-- The name half of the `find` predicate: `entry.name == args.guest_binary.to_uppercase()`. -/
def nameMatches (entry : GuestEntry) (guestBinary : List Char) : Bool :=
  entry.name == toUpperChars guestBinary

/-- The identity half of the `find` predicate:
`bytemuck::cast::<[u32; 8], [u8; 32]>(entry.image_id) == potential_guest_image_id`. -/
def idMatches (entry : GuestEntry) (guestBinary : List Char) : Bool :=
  entry.imageId == potentialGuestImageId guestBinary

/-- `GUEST_LIST.iter().find(...)` of `main`; `none` models the
`expect("Unknown guest binary")` panic. -/
def resolveGuest (guestList : List GuestEntry) (guestBinary : List Char) : Option GuestEntry :=
  guestList.find? fun entry => nameMatches entry guestBinary || idMatches entry guestBinary

/-! ## CLI input decoding — `src/methods/src/main.rs`, `main`, lines 97-100. -/

/-- Outcome of `hex::decode(&input[2..])` on the raw input argument. -/
inductive InputDecode where
  /-- `&input[2..]` on a string shorter than two bytes: byte-range panic. -/
  | panicOutOfBounds : InputDecode
  /-- `expect("Failed to decode image id")`: the remainder is not valid hex. -/
  | decodeFailed : InputDecode
  /-- Successfully decoded bytes. -/
  | ok : List Byte → InputDecode
deriving DecidableEq

/-- `hex::decode(&input[2..])`: the first two bytes of the argument are
sliced off unconditionally before decoding; slicing panics when fewer than
two bytes are present. -/
def decodeInputArg (input : List Char) : InputDecode :=
  if input.length < 2 then .panicOutOfBounds
  else
    match hexDecode (input.drop 2) with
    | some bytes => .ok bytes
    | none => .decodeFailed

/-! ## Remote proving session — `src/methods/src/main.rs`, `prove_remote`,
lines 48-77, over the `bonsai-sdk` client (`src/bonsai-sdk/src/lib.rs`). -/

/-- `bonsai_sdk::responses::SessionStatusRes`: the status string plus the
optional receipt download URL. -/
structure SessionStatusRes where
  status : List Char
  receiptUrl : Option (List Char)

/-- The deserialized `SessionRollupReceipt`: its committed journal and the
program identity its cryptographic seal is bound to. -/
structure Receipt where
  journal : List Byte
  boundImageId : List Byte

/-- Modelled from the spec: `receipt.verify(image_id)` (risc0 recursion crate,
external to this repository) succeeds exactly when the receipt's embedded
program identity equals the expected identity (§4.5 binding check). -/
def receiptVerifies (r : Receipt) (expectedImageId : List Byte) : Bool :=
  r.boundImageId == expectedImageId

/-- Externally observable actions of the orchestration layer, in order. -/
inductive Event where
  /-- `client.upload_img_file(elf_path)` -/
  | uploadImage : Event
  /-- `client.upload_input(input)` -/
  | uploadInput : Event
  /-- `client.create_session(img_id, input_id)` -/
  | createSession : Event
  /-- `session.status(&client)` -/
  | statusQuery : Event
  /-- `std::thread::sleep(Duration::from_secs(n))` -/
  | sleepSecs : Nat → Event
  /-- `client.download(&receipt_url)` -/
  | download : List Char → Event
  /-- `receipt.verify(guest_entry.image_id)` -/
  | verifyCheck : Event
  /-- `Executor::from_elf` + `exec.run()` of `prove_locally` -/
  | executorRun : Event
  /-- `session.prove()` of `prove_locally` (only when `PROVE_LOCALLY` is set) -/
  | proveSession : Event
deriving DecidableEq

/-- How `prove_remote` can fail (each constructor names the code site). -/
inductive RemoteErr where
  /-- `.context("API error, missing receipt on completed session")` on a
  `SUCCEEDED` status without a `receipt_url`. -/
  | protocolViolation : RemoteErr
  /-- `bincode::deserialize(&receipt_buf)?` failed. -/
  | deserializeFailed : RemoteErr
  /-- `.context("Receipt verification failed")`. -/
  | verifyFailed : RemoteErr
  /-- `panic!("Workflow exited: {}", res.status)` on any terminal status other
  than `SUCCEEDED`, carrying that status verbatim. -/
  | remoteJobFailed : List Char → RemoteErr
  /-- The scripted status sequence supplied fewer responses than the loop
  issued queries (the real service would answer every query). -/
  | outOfScriptedResponses : RemoteErr
deriving DecidableEq

/-- The polling loop of `prove_remote` (lines 56-76).  The `script` lists the
status responses the service returns, one per issued query; `download` and
`deserialize` abstract the HTTP fetch and `bincode::deserialize`.  Returns
the emitted event trace and either the verified receipt's journal or the
failure. -/
def pollLoop (expectedImageId : List Byte) (download : List Char → List Byte)
    (deserialize : List Byte → Option Receipt) :
    List SessionStatusRes → List Event × Except RemoteErr (List Byte)
  | [] => ([], .error .outOfScriptedResponses)
  | res :: rest =>
    if res.status = "RUNNING".data then
      let next := pollLoop expectedImageId download deserialize rest
      (Event.statusQuery :: Event.sleepSecs 15 :: next.1, next.2)
    else if res.status = "SUCCEEDED".data then
      match res.receiptUrl with
      | none => ([Event.statusQuery], .error .protocolViolation)
      | some url =>
        match deserialize (download url) with
        | none => ([Event.statusQuery, Event.download url], .error .deserializeFailed)
        | some receipt =>
          if receiptVerifies receipt expectedImageId then
            ([Event.statusQuery, Event.download url, Event.verifyCheck],
              .ok receipt.journal)
          else
            ([Event.statusQuery, Event.download url, Event.verifyCheck],
              .error .verifyFailed)
    else ([Event.statusQuery], .error (.remoteJobFailed res.status))

/-- `prove_remote`: upload the image, upload the input, create the session,
then poll.  The uploads and the session creation happen exactly once, before
any polling. -/
def proveRemote (expectedImageId : List Byte) (download : List Char → List Byte)
    (deserialize : List Byte → Option Receipt) (script : List SessionStatusRes) :
    List Event × Except RemoteErr (List Byte) :=
  let polled := pollLoop expectedImageId download deserialize script
  (Event.uploadImage :: Event.uploadInput :: Event.createSession :: polled.1, polled.2)

/-! ## Local proving — `src/methods/src/main.rs`, `prove_locally`,
lines 34-46. -/

/-- `prove_locally`: run the executor (`execute` abstracts
`Executor::from_elf` + `run`, `none` modelling its `expect` panics), optionally
prove the session when `PROVE_LOCALLY` is set, and return `session.journal`.
No receipt verification of any kind occurs on this path. -/
def proveLocally (execute : List Byte → List Byte → Option (List Byte))
    (proveLocallyEnvSet : Bool) (elf input : List Byte) :
    List Event × Option (List Byte) :=
  match execute elf input with
  | none => ([Event.executorRun], none)
  | some journal =>
    if proveLocallyEnvSet then ([Event.executorRun, Event.proveSession], some journal)
    else ([Event.executorRun], some journal)

/-! ## Dispatcher — `src/methods/src/main.rs`, `main`, lines 79-113. -/

/-- Terminal failures of `main` (each is an `expect`/panic in the code). -/
inductive MainErr where
  /-- `expect("Unknown guest binary")` -/
  | unknownGuestBinary : MainErr
  /-- byte-range panic on `&input[2..]` -/
  | panicSliceOutOfBounds : MainErr
  /-- `expect("Failed to decode image id")` -/
  | inputDecodeFailed : MainErr
  /-- `expect("Failed to run proof with bonsai")` -/
  | remoteFailed : RemoteErr → MainErr
  /-- an `expect` inside `prove_locally` -/
  | localExecutionFailed : MainErr
deriving DecidableEq

/-- Little-endian u64, as written by `bincode` for a length prefix. -/
def leBytes8 (n : Nat) : List Byte := (List.range 8).map fun i => n / 256 ^ i % 256

/-- `bincode::serialize` of a `Vec<u8>`: little-endian u64 length prefix
followed by the bytes. -/
def bincodeSerializeBytes (b : List Byte) : List Byte := leBytes8 b.length ++ b

/-- The ambient environment configuration `main` consults. -/
structure Config where
  /-- `env::var("BONSAI_ENDPOINT").is_ok()` -/
  bonsaiEndpointSet : Bool
  /-- `env::var("PROVE_LOCALLY").is_ok()` -/
  proveLocallyEnvSet : Bool

/-- `main`: resolve the guest entry; with no input argument return the image
id bytes; otherwise decode the input, `bincode`-serialize it, and route to the
remote or the local backend on the presence of `BONSAI_ENDPOINT`.  Returns
the backend event trace and the final output bytes (hex-printed by the
binary) or the failure. -/
def mainDispatch (guestList : List GuestEntry)
    (execute : List Byte → List Byte → Option (List Byte))
    (download : List Char → List Byte) (deserialize : List Byte → Option Receipt)
    (script : List SessionStatusRes) (cfg : Config)
    (guestBinary : List Char) (inputArg : Option (List Char)) :
    List Event × Except MainErr (List Byte) :=
  match resolveGuest guestList guestBinary with
  | none => ([], .error .unknownGuestBinary)
  | some entry =>
    match inputArg with
    | none => ([], .ok entry.imageId)
    | some inp =>
      match decodeInputArg inp with
      | .panicOutOfBounds => ([], .error .panicSliceOutOfBounds)
      | .decodeFailed => ([], .error .inputDecodeFailed)
      | .ok bytes =>
        let input := bincodeSerializeBytes bytes
        if cfg.bonsaiEndpointSet then
          let r := proveRemote entry.imageId download deserialize script
          (r.1, r.2.mapError .remoteFailed)
        else
          let r := proveLocally execute cfg.proveLocallyEnvSet entry.elf input
          match r.2 with
          | none => (r.1, .error .localExecutionFailed)
          | some journal => (r.1, .ok journal)

/-! ## Guest program — `src/methods/guest/src/bin/bitcoin_block_verify.rs`. -/

/-- Modelled from the spec: `HeaderArray::new` (bitcoin_spv, external to this
repository) views the raw buffer as a sequence of fixed-size 80-byte header
records (§3 PackagedInput, §6 chain validator) and fails when the buffer is
not a whole number of such records. -/
def chunk80 (l : List Byte) : Option (List (List Byte)) :=
  if _h : l = [] then some []
  else if _h2 : 80 ≤ l.length then
    match chunk80 (l.drop 80) with
    | some rest => some (l.take 80 :: rest)
    | none => none
  else none
termination_by l.length
decreasing_by simp [List.length_drop]; omega

/-- `ethabi` head encoding of `Token::Uint(U256::from n)`: one 32-byte
big-endian word. -/
def abiWordOfNat (n : Nat) : List Byte := (List.range 32).map fun i => n / 256 ^ (31 - i) % 256

/-- `ethabi::encode(&[Token::Uint(height), Token::FixedBytes(hash)])` with a
32-byte hash: both tokens are static, so the encoding is the height word
followed by the hash bytes. -/
def ethabiEncodeOutput (height : Nat) (hash : List Byte) : List Byte :=
  abiWordOfNat height ++ hash

/-- The guest `main`: read `(height, raw header bytes)`, build the header
array, validate the chain, and commit the ABI encoding of the height and the
digest of the last header.  `validateHeaderChain` abstracts
`validate_header_chain(&headers, true)` and `headerDigest` abstracts
`raw_header.digest()` (both bitcoin_spv, external).  `none` models the
`unwrap` panics, after which nothing is committed. -/
def guestMain (validateHeaderChain : List (List Byte) → Bool)
    (headerDigest : List Byte → List Byte)
    (height : Nat) (rawHeaders : List Byte) : Option (List Byte) :=
  match chunk80 rawHeaders with
  | none => none
  | some headers =>
    if validateHeaderChain headers then
      match headers.getLast? with
      | none => none
      | some lastHeader => some (ethabiEncodeOutput height (headerDigest lastHeader))
    else none

/-! ## The apps binary — `src/apps/src/main.rs`. -/

/-- What the apps binary does with a downloaded receipt (lines 46-49):
`receipt.journal.decode::<(u64, [u8; 32])>().unwrap()` first, then
`println!` of the decoded output, then `receipt.verify(BITCOIN_BLOCK_VERIFY_ID)`. -/
inductive AppsOutcome where
  /-- the journal decode `unwrap` at line 46 panicked; nothing was printed -/
  | panicJournalDecode : AppsOutcome
  /-- the decoded output was printed, after which `verify` at line 49 failed -/
  | printedThenPanicVerify : Nat → List Byte → AppsOutcome
  /-- the decoded output was printed and `verify` succeeded -/
  | printedAndVerified : Nat → List Byte → AppsOutcome
deriving DecidableEq

/-- Lines 46-49 of `src/apps/src/main.rs`: decode the journal, print the
output, and only then verify the receipt's identity binding.
`decodeJournal` abstracts `journal.decode::<(u64, [u8; 32])>()` (risc0 serde,
external). -/
def appsProcessReceipt (decodeJournal : List Byte → Option (Nat × List Byte))
    (r : Receipt) (expectedImageId : List Byte) : AppsOutcome :=
  match decodeJournal r.journal with
  | none => .panicJournalDecode
  | some (height, hash) =>
    if receiptVerifies r expectedImageId then .printedAndVerified height hash
    else .printedThenPanicVerify height hash

/-- The input-collection loop of the apps binary (lines 22-30): for each
fetched block (already hex-decoded), take its first 80 bytes
(`&data[..80]`) and append them.  A block shorter than 80 bytes makes the
slice panic (`none`); longer blocks are silently truncated. -/
def packageBlocks : List (List Byte) → Option (List Byte)
  | [] => some []
  | blockData :: rest =>
    if 80 ≤ blockData.length then
      match packageBlocks rest with
      | some out => some (blockData.take 80 ++ out)
      | none => none
    else none

end BBV

namespace BBV

/-! ## Helper lemmas. -/

/-- One unfolding step of the polling loop on a non-empty script. -/
theorem pollLoop_cons (e : List Byte) (dl : List Char → List Byte)
    (de : List Byte → Option Receipt) (res : SessionStatusRes)
    (rest : List SessionStatusRes) :
    pollLoop e dl de (res :: rest) =
      if res.status = "RUNNING".data then
        let next := pollLoop e dl de rest
        (Event.statusQuery :: Event.sleepSecs 15 :: next.1, next.2)
      else if res.status = "SUCCEEDED".data then
        match res.receiptUrl with
        | none => ([Event.statusQuery], .error .protocolViolation)
        | some url =>
          match de (dl url) with
          | none => ([Event.statusQuery, Event.download url], .error .deserializeFailed)
          | some receipt =>
            if receiptVerifies receipt e then
              ([Event.statusQuery, Event.download url, Event.verifyCheck],
                .ok receipt.journal)
            else
              ([Event.statusQuery, Event.download url, Event.verifyCheck],
                .error .verifyFailed)
      else ([Event.statusQuery], .error (.remoteJobFailed res.status)) := rfl

/-- A download event is emitted only for a url delivered by a `SUCCEEDED`
status response of the script. -/
theorem pollLoop_download_of_succeeded (e : List Byte) (dl : List Char → List Byte)
    (de : List Byte → Option Receipt) :
    ∀ (script : List SessionStatusRes) (u : List Char),
      Event.download u ∈ (pollLoop e dl de script).1 →
      ∃ res ∈ script, res.status = "SUCCEEDED".data ∧ res.receiptUrl = some u := by
  intro script
  induction script with
  | nil => intro u h; simp [pollLoop] at h
  | cons res rest ih =>
    intro u h
    rw [pollLoop_cons] at h
    by_cases h1 : res.status = "RUNNING".data
    · rw [if_pos h1] at h
      simp only [List.mem_cons] at h
      rcases h with h | h | h
      · exact absurd h (by simp)
      · exact absurd h (by simp)
      · rcases ih u h with ⟨r, hr, hs⟩
        exact ⟨r, List.mem_cons_of_mem res hr, hs⟩
    · rw [if_neg h1] at h
      by_cases h2 : res.status = "SUCCEEDED".data
      · rw [if_pos h2] at h
        cases hurl : res.receiptUrl with
        | none => rw [hurl] at h; simp at h
        | some url =>
          rw [hurl] at h
          simp only [] at h
          cases hde : de (dl url) with
          | none =>
            rw [hde] at h
            simp only [] at h
            simp only [List.mem_cons, List.not_mem_nil, or_false] at h
            rcases h with h | h
            · exact absurd h (by simp)
            · obtain rfl : u = url := by injection h
              exact ⟨res, List.mem_cons_self res rest, h2, hurl⟩
          | some receipt =>
            rw [hde] at h
            simp only [] at h
            by_cases hv : receiptVerifies receipt e
            · rw [if_pos hv] at h
              simp only [List.mem_cons, List.not_mem_nil, or_false] at h
              rcases h with h | h | h
              · exact absurd h (by simp)
              · obtain rfl : u = url := by injection h
                exact ⟨res, List.mem_cons_self res rest, h2, hurl⟩
              · exact absurd h (by simp)
            · rw [if_neg hv] at h
              simp only [List.mem_cons, List.not_mem_nil, or_false] at h
              rcases h with h | h | h
              · exact absurd h (by simp)
              · obtain rfl : u = url := by injection h
                exact ⟨res, List.mem_cons_self res rest, h2, hurl⟩
              · exact absurd h (by simp)
      · rw [if_neg h2] at h
        simp at h

/-- The polling loop returns a journal only after a receipt it downloaded and
deserialized passed the identity-binding verification, and the verification
event is in the trace. -/
theorem pollLoop_ok_of_verified (e : List Byte) (dl : List Char → List Byte)
    (de : List Byte → Option Receipt) :
    ∀ (script : List SessionStatusRes) (j : List Byte),
      (pollLoop e dl de script).2 = Except.ok j →
      Event.verifyCheck ∈ (pollLoop e dl de script).1 ∧
      ∃ url receipt, de (dl url) = some receipt ∧
        receiptVerifies receipt e = true ∧ receipt.journal = j := by
  intro script
  induction script with
  | nil => intro j h; simp [pollLoop] at h
  | cons res rest ih =>
    intro j h
    rw [pollLoop_cons] at h
    rw [pollLoop_cons]
    by_cases h1 : res.status = "RUNNING".data
    · rw [if_pos h1] at h ⊢
      rcases ih j h with ⟨hmem, hw⟩
      exact ⟨by simp [hmem], hw⟩
    · rw [if_neg h1] at h ⊢
      by_cases h2 : res.status = "SUCCEEDED".data
      · rw [if_pos h2] at h ⊢
        cases hurl : res.receiptUrl with
        | none => rw [hurl] at h; simp at h
        | some url =>
          rw [hurl] at h
          simp only [] at h ⊢
          cases hde : de (dl url) with
          | none => rw [hde] at h; simp at h
          | some receipt =>
            rw [hde] at h
            simp only [] at h ⊢
            by_cases hv : receiptVerifies receipt e
            · rw [if_pos hv] at h ⊢
              refine ⟨by simp, url, receipt, hde, hv, ?_⟩
              injection h
            · rw [if_neg hv] at h
              simp at h
      · rw [if_neg h2] at h
        simp at h

/-- The fallback image id always has 32 bytes. -/
theorem potentialGuestImageId_length (q : List Char) :
    (potentialGuestImageId q).length = 32 := by
  unfold potentialGuestImageId
  split
  · split
    · assumption
    · simp [zeroImageId]
  · simp [zeroImageId]

/-- Splitting the concatenation of 80-byte records recovers the records. -/
theorem chunk80_flatten (headers : List (List Byte))
    (hlen : ∀ h ∈ headers, h.length = 80) :
    chunk80 headers.flatten = some headers := by
  induction headers with
  | nil => simp [chunk80]
  | cons b rest ih =>
    have hb : b.length = 80 := hlen b (List.mem_cons_self b rest)
    have hrest : ∀ h ∈ rest, h.length = 80 :=
      fun h hm => hlen h (List.mem_cons_of_mem b hm)
    have hbne : b ++ rest.flatten ≠ [] := by
      intro hc
      rcases List.append_eq_nil.mp hc with ⟨hb0, -⟩
      rw [hb0] at hb
      simp at hb
    have hblen : 80 ≤ (b ++ rest.flatten).length := by
      rw [List.length_append, hb]
      omega
    have hdrop : (b ++ rest.flatten).drop 80 = rest.flatten := by
      rw [show (80 : Nat) = b.length from hb.symm]
      exact List.drop_left b rest.flatten
    have htake : (b ++ rest.flatten).take 80 = b := by
      rw [show (80 : Nat) = b.length from hb.symm]
      exact List.take_left b rest.flatten
    rw [List.flatten_cons]
    unfold chunk80
    rw [dif_neg hbne, dif_pos hblen, hdrop, ih hrest, htake]

/-- Sanity: `"0x"` is stripped repeatedly and case-insensitively lower-cased
before identity decoding. -/
example : potentialGuestImageId "0xZZ".data = zeroImageId := by decide

example : hexDecode "abcd".data = some [171, 205] := by decide

example : decodeInputArg "0x01".data = .ok [1] := by decide

example : decodeInputArg "a".data = .panicOutOfBounds := by decide

/-- The local proving path never emits a verification event. -/
theorem proveLocally_no_verify (exec : List Byte → List Byte → Option (List Byte))
    (penv : Bool) (elf input : List Byte) :
    Event.verifyCheck ∉ (proveLocally exec penv elf input).1 := by
  unfold proveLocally
  cases exec elf input with
  | none => simp
  | some journal => cases penv <;> simp

/-! ## The claims. -/

/-- C10: when an input argument is supplied on the CLI, its first two
characters are stripped unconditionally before hex decoding — whatever they
are — and an argument shorter than two bytes panics on the out-of-bounds
slice `&input[2..]` instead of reporting a decoding error. -/
theorem c10_input_prefix_sliced_unconditionally (input : List Char) :
    (∀ c1 c2 rest, input = c1 :: c2 :: rest →
        decodeInputArg input =
          match hexDecode rest with
          | some bytes => InputDecode.ok bytes
          | none => InputDecode.decodeFailed) ∧
    (input.length < 2 → decodeInputArg input = InputDecode.panicOutOfBounds) ∧
    InputDecode.panicOutOfBounds ≠ InputDecode.decodeFailed := by
  refine ⟨?_, ?_, by simp⟩
  · rintro c1 c2 rest rfl
    unfold decodeInputArg
    rw [if_neg (by simp)]
    rfl
  · intro h
    unfold decodeInputArg
    rw [if_pos h]

/-- C9: a program query that does not hex-decode to exactly 32 bytes (invalid
hex or wrong length) falls back to the all-zero digest for the identity
comparison — it is never rejected at the decoding step — and therefore
matches an entry by identity exactly when that entry's image id is all
zeros. -/
theorem c9_zero_digest_fallback (q : List Char)
    (h : hexDecode (trim0x (toLowerChars q)) = none ∨
      ∃ bs, hexDecode (trim0x (toLowerChars q)) = some bs ∧ bs.length ≠ 32) :
    potentialGuestImageId q = zeroImageId ∧
    ∀ e : GuestEntry, idMatches e q = true ↔ e.imageId = zeroImageId := by
  have hpot : potentialGuestImageId q = zeroImageId := by
    unfold potentialGuestImageId
    rcases h with h | ⟨bs, hbs, hlen⟩
    · rw [h]
    · rw [hbs]
      simp [hlen]
  refine ⟨hpot, fun e => ?_⟩
  unfold idMatches
  rw [hpot]
  constructor
  · exact fun hb => eq_of_beq hb
  · intro hb
    rw [hb]
    simp

/-- C9 witness: the query `"zz"` is not valid hex; it falls back to the
all-zero potential digest and matches entries exactly by the all-zero image
id. -/
theorem c9_zero_digest_fallback_witness :
    potentialGuestImageId "zz".data = zeroImageId ∧
    ∀ e : GuestEntry, idMatches e "zz".data = true ↔ e.imageId = zeroImageId :=
  c9_zero_digest_fallback "zz".data (Or.inl (by decide))

/-- C6: a `SUCCEEDED` status response carrying no receipt url raises the
protocol-violation error (`context("API error, missing receipt on completed
session")`), which is neither the ordinary job-failure error nor a
success. -/
theorem c6_succeeded_without_receipt_url (expectedImageId : List Byte)
    (dl : List Char → List Byte) (de : List Byte → Option Receipt)
    (rest : List SessionStatusRes) :
    pollLoop expectedImageId dl de
        ({ status := "SUCCEEDED".data, receiptUrl := none } :: rest) =
      ([Event.statusQuery], .error RemoteErr.protocolViolation) ∧
    (∀ s, RemoteErr.protocolViolation ≠ RemoteErr.remoteJobFailed s) ∧
    ∀ out : List Byte,
      (Except.error RemoteErr.protocolViolation : Except RemoteErr (List Byte)) ≠
        .ok out := by
  refine ⟨?_, ?_, ?_⟩
  · rw [pollLoop_cons, if_neg (by decide), if_pos (by decide)]
  · intro s h
    cases h
  · intro out h
    cases h

/-- C8: a terminal status other than `SUCCEEDED` (any of `FAILED`,
`TIMED_OUT`, `ABORTED`) fails the job attempt with the job-failure error
carrying the reported status string verbatim, and no resubmission happens:
the trace ends at that query, with exactly one session ever created. -/
theorem c8_terminal_status_fails_verbatim (expectedImageId : List Byte)
    (dl : List Char → List Byte) (de : List Byte → Option Receipt)
    (rest : List SessionStatusRes) (res : SessionStatusRes)
    (h1 : res.status ≠ "RUNNING".data) (h2 : res.status ≠ "SUCCEEDED".data) :
    pollLoop expectedImageId dl de (res :: rest) =
      ([Event.statusQuery], .error (RemoteErr.remoteJobFailed res.status)) ∧
    proveRemote expectedImageId dl de (res :: rest) =
      ([Event.uploadImage, Event.uploadInput, Event.createSession, Event.statusQuery],
        .error (RemoteErr.remoteJobFailed res.status)) ∧
    (proveRemote expectedImageId dl de (res :: rest)).1.count Event.createSession = 1 ∧
    (proveRemote expectedImageId dl de (res :: rest)).1.count Event.statusQuery = 1 := by
  have hp : pollLoop expectedImageId dl de (res :: rest) =
      ([Event.statusQuery], .error (RemoteErr.remoteJobFailed res.status)) := by
    rw [pollLoop_cons, if_neg h1, if_neg h2]
  have hr : proveRemote expectedImageId dl de (res :: rest) =
      ([Event.uploadImage, Event.uploadInput, Event.createSession, Event.statusQuery],
        .error (RemoteErr.remoteJobFailed res.status)) := by
    unfold proveRemote
    rw [hp]
  refine ⟨hp, hr, ?_, ?_⟩ <;> rw [hr] <;> rfl

/-- C8 witness: a scripted `FAILED` response. -/
theorem c8_terminal_status_fails_verbatim_witness :
    pollLoop [] (fun _ => []) (fun _ => none)
        [{ status := "FAILED".data, receiptUrl := none }] =
      ([Event.statusQuery], .error (RemoteErr.remoteJobFailed "FAILED".data)) ∧
    proveRemote [] (fun _ => []) (fun _ => none)
        [{ status := "FAILED".data, receiptUrl := none }] =
      ([Event.uploadImage, Event.uploadInput, Event.createSession, Event.statusQuery],
        .error (RemoteErr.remoteJobFailed "FAILED".data)) ∧
    (proveRemote [] (fun _ => []) (fun _ => none)
        [{ status := "FAILED".data, receiptUrl := none }]).1.count Event.createSession = 1 ∧
    (proveRemote [] (fun _ => []) (fun _ => none)
        [{ status := "FAILED".data, receiptUrl := none }]).1.count Event.statusQuery = 1 :=
  c8_terminal_status_fails_verbatim [] (fun _ => []) (fun _ => none) []
    { status := "FAILED".data, receiptUrl := none } (by decide) (by decide)

/-- C5: on the scripted status sequence `RUNNING, RUNNING, SUCCEEDED` the
loop issues exactly 3 status queries, sleeping the fixed 15 seconds after
each `RUNNING` observation before re-querying; and, on any script, a
download is attempted only for a url delivered by a `SUCCEEDED` status
response. -/
theorem c5_polling_three_queries_and_no_early_download :
    (∀ (u : List Char) (e : List Byte) (dl : List Char → List Byte)
        (de : List Byte → Option Receipt),
      (pollLoop e dl de [⟨"RUNNING".data, none⟩, ⟨"RUNNING".data, none⟩,
          ⟨"SUCCEEDED".data, some u⟩]).1.count Event.statusQuery = 3 ∧
      (pollLoop e dl de [⟨"RUNNING".data, none⟩, ⟨"RUNNING".data, none⟩,
          ⟨"SUCCEEDED".data, some u⟩]).1.take 5 =
        [Event.statusQuery, Event.sleepSecs 15, Event.statusQuery,
          Event.sleepSecs 15, Event.statusQuery]) ∧
    (∀ e dl de script u, Event.download u ∈ (pollLoop e dl de script).1 →
      ∃ res ∈ script, res.status = "SUCCEEDED".data ∧ res.receiptUrl = some u) := by
  constructor
  · intro u e dl de
    cases hde : de (dl u) with
    | none =>
      have hfull : pollLoop e dl de [⟨"RUNNING".data, none⟩, ⟨"RUNNING".data, none⟩,
          ⟨"SUCCEEDED".data, some u⟩] =
          ([Event.statusQuery, Event.sleepSecs 15, Event.statusQuery, Event.sleepSecs 15,
            Event.statusQuery, Event.download u], .error .deserializeFailed) := by
        rw [pollLoop_cons, if_pos rfl, pollLoop_cons, if_pos rfl,
          pollLoop_cons,
          if_neg (show ¬(("SUCCEEDED".data : List Char) = "RUNNING".data) by decide),
          if_pos (show ("SUCCEEDED".data : List Char) = "SUCCEEDED".data from rfl)]
        simp only []
        rw [hde]
      rw [hfull]
      exact ⟨rfl, rfl⟩
    | some receipt =>
      by_cases hv : receiptVerifies receipt e
      · have hfull : pollLoop e dl de [⟨"RUNNING".data, none⟩, ⟨"RUNNING".data, none⟩,
            ⟨"SUCCEEDED".data, some u⟩] =
            ([Event.statusQuery, Event.sleepSecs 15, Event.statusQuery, Event.sleepSecs 15,
              Event.statusQuery, Event.download u, Event.verifyCheck],
              .ok receipt.journal) := by
          rw [pollLoop_cons, if_pos rfl, pollLoop_cons, if_pos rfl,
            pollLoop_cons,
            if_neg (show ¬(("SUCCEEDED".data : List Char) = "RUNNING".data) by decide),
            if_pos (show ("SUCCEEDED".data : List Char) = "SUCCEEDED".data from rfl)]
          simp only []
          rw [hde]
          simp only []
          rw [if_pos hv]
        rw [hfull]
        exact ⟨rfl, rfl⟩
      · have hfull : pollLoop e dl de [⟨"RUNNING".data, none⟩, ⟨"RUNNING".data, none⟩,
            ⟨"SUCCEEDED".data, some u⟩] =
            ([Event.statusQuery, Event.sleepSecs 15, Event.statusQuery, Event.sleepSecs 15,
              Event.statusQuery, Event.download u, Event.verifyCheck],
              .error .verifyFailed) := by
          rw [pollLoop_cons, if_pos rfl, pollLoop_cons, if_pos rfl,
            pollLoop_cons,
            if_neg (show ¬(("SUCCEEDED".data : List Char) = "RUNNING".data) by decide),
            if_pos (show ("SUCCEEDED".data : List Char) = "SUCCEEDED".data from rfl)]
          simp only []
          rw [hde]
          simp only []
          rw [if_neg hv]
        rw [hfull]
        exact ⟨rfl, rfl⟩
  · exact fun e dl de script u h => pollLoop_download_of_succeeded e dl de script u h

/-- C2 (amended): only the remote backend passes the receipt through the
verifier: a successful remote result implies the downloaded, deserialized
receipt passed the identity-binding check and its journal is the returned
output, while the local backend (and the dispatcher routing to it) never
performs any receipt verification before returning output. -/
theorem c2_only_remote_path_verifies :
    (∀ e dl de script j, (pollLoop e dl de script).2 = Except.ok j →
      Event.verifyCheck ∈ (pollLoop e dl de script).1 ∧
      ∃ url receipt, de (dl url) = some receipt ∧
        receiptVerifies receipt e = true ∧ receipt.journal = j) ∧
    (∀ exec penv elf input,
      Event.verifyCheck ∉ (proveLocally exec penv elf input).1) ∧
    (∀ gl exec dl de script penv q inputArg,
      Event.verifyCheck ∉
        (mainDispatch gl exec dl de script ⟨false, penv⟩ q inputArg).1) := by
  refine ⟨fun e dl de script j h => pollLoop_ok_of_verified e dl de script j h,
    fun exec penv elf input => proveLocally_no_verify exec penv elf input, ?_⟩
  intro gl exec dl de script penv q inputArg
  unfold mainDispatch
  cases resolveGuest gl q with
  | none => simp
  | some entry =>
    cases inputArg with
    | none => simp
    | some inp =>
      rcases hda : decodeInputArg inp with _ | _ | bytes
      · simp [hda]
      · simp [hda]
      · simp only [hda]
        cases hm : (proveLocally exec penv entry.elf
            (bincodeSerializeBytes bytes)).2 with
        | none =>
          simp only [hm]
          simpa using proveLocally_no_verify exec penv entry.elf
            (bincodeSerializeBytes bytes)
        | some journal =>
          simp only [hm]
          simpa using proveLocally_no_verify exec penv entry.elf
            (bincodeSerializeBytes bytes)

/-- C2 counterexample: with no remote configuration, a concrete proving
request with an input present returns output to the caller although no
receipt-verification event ever occurred. -/
theorem c2_local_output_without_verification :
    (mainDispatch [⟨"BITCOIN_BLOCK_VERIFY".data, List.replicate 32 1, [], []⟩]
        (fun _ _ => some [7]) (fun _ => []) (fun _ => none) [] ⟨false, false⟩
        "BITCOIN_BLOCK_VERIFY".data (some "0x01".data)).2 = Except.ok [7] ∧
    Event.verifyCheck ∉
      (mainDispatch [⟨"BITCOIN_BLOCK_VERIFY".data, List.replicate 32 1, [], []⟩]
        (fun _ _ => some [7]) (fun _ => []) (fun _ => none) [] ⟨false, false⟩
        "BITCOIN_BLOCK_VERIFY".data (some "0x01".data)).1 := by
  constructor
  · rfl
  · decide

/-- C1: the apps binary decodes (and prints) the journal before checking the
receipt's identity binding: on a receipt with a mismatched identity and a
malformed journal the reported failure is the journal-decode panic, not an
identity mismatch, and on a mismatched receipt with a well-formed journal
the output is printed before verification fails. -/
theorem c1_apps_decodes_journal_before_identity_check :
    receiptVerifies ⟨[0], List.replicate 32 1⟩ (List.replicate 32 2) = false ∧
    appsProcessReceipt (fun _ => none) ⟨[0], List.replicate 32 1⟩
        (List.replicate 32 2) = AppsOutcome.panicJournalDecode ∧
    (∀ height hash, AppsOutcome.panicJournalDecode ≠
        AppsOutcome.printedThenPanicVerify height hash) ∧
    appsProcessReceipt (fun _ => some (15, List.replicate 32 3))
        ⟨[0], List.replicate 32 1⟩ (List.replicate 32 2) =
      AppsOutcome.printedThenPanicVerify 15 (List.replicate 32 3) := by
  refine ⟨by decide, rfl, ?_, by decide⟩
  intro height hash h
  cases h

/-- C7 counterexample: a fetched record 100 bytes long is not rejected —
packaging succeeds by truncating it to its first 80 bytes — so packaging
does not fail whenever an individual record's length differs from 80, and
no `MalformedInput` failure exists. -/
theorem c7_overlong_record_not_rejected :
    (List.replicate 100 7 : List Byte).length ≠ 80 ∧
    packageBlocks [List.replicate 100 7] = some (List.replicate 80 7) := by
  constructor
  · decide
  · decide

/-- C7 (amended): the host performs no per-record length validation and has
no `MalformedInput` error: the apps packager panics on the out-of-bounds
slice exactly when some fetched record is shorter than 80 bytes, and
otherwise concatenates each record's first 80 bytes, silently truncating
longer records; nothing else about the content is checked. -/
theorem c7_packager_truncates_without_validation (blocks : List (List Byte)) :
    (packageBlocks blocks = none ↔ ∃ b ∈ blocks, b.length < 80) ∧
    ∀ out, packageBlocks blocks = some out →
      out = (blocks.map fun b => b.take 80).flatten := by
  induction blocks with
  | nil =>
    constructor
    · simp [packageBlocks]
    · intro out h
      simp only [packageBlocks, Option.some.injEq] at h
      simp [← h]
  | cons b rest ih =>
    constructor
    · unfold packageBlocks
      by_cases hb : 80 ≤ b.length
      · rw [if_pos hb]
        cases hr : packageBlocks rest with
        | none =>
          simp only []
          constructor
          · intro _
            rcases ih.1.mp hr with ⟨x, hx, hlx⟩
            exact ⟨x, List.mem_cons_of_mem b hx, hlx⟩
          · intro _
            trivial
        | some tailOut =>
          simp only []
          constructor
          · intro h
            cases h
          · rintro ⟨x, hx, hlx⟩
            rcases List.mem_cons.mp hx with rfl | hx2
            · omega
            · have hcon := ih.1.mpr ⟨x, hx2, hlx⟩
              rw [hr] at hcon
              cases hcon
      · rw [if_neg hb]
        constructor
        · intro _
          exact ⟨b, List.mem_cons_self b rest, by omega⟩
        · intro _
          rfl
    · intro out h
      unfold packageBlocks at h
      by_cases hb : 80 ≤ b.length
      · rw [if_pos hb] at h
        cases hr : packageBlocks rest with
        | none => rw [hr] at h; cases h
        | some tailOut =>
          rw [hr] at h
          simp only [Option.some.injEq] at h
          have htail := ih.2 tailOut hr
          rw [List.map_cons, List.flatten_cons, ← h, htail]
      · rw [if_neg hb] at h
        cases h

/-- C4: registry resolution is exact: the result is invariant under the
query's letter case; a name match forces the entry's name to equal the
upper-cased query (so a proper substring of an entry's name never matches);
an identity match forces full equality with the 32-byte potential digest;
and the name `DOES_NOT_EXIST` resolves to nothing — panicking with the
unknown-binary error before any proving — on any registry whose entries have
other names and non-zero image ids (concretely, on the spec's
`BITCOIN_BLOCK_VERIFY` registry; a substring query also fails there, while a
lower-case spelling of the full name succeeds). -/
theorem c4_registry_lookup_exact :
    (∀ gl q1 q2, toUpperChars q1 = toUpperChars q2 →
      toLowerChars q1 = toLowerChars q2 →
      resolveGuest gl q1 = resolveGuest gl q2) ∧
    (∀ e q, nameMatches e q = true → e.name = toUpperChars q) ∧
    (∀ e q, idMatches e q = true →
      e.imageId = potentialGuestImageId q ∧ e.imageId.length = 32) ∧
    (∀ gl exec dl de script cfg inputArg,
      (∀ e ∈ gl, e.name ≠ "DOES_NOT_EXIST".data ∧ e.imageId ≠ zeroImageId) →
      resolveGuest gl "DOES_NOT_EXIST".data = none ∧
      mainDispatch gl exec dl de script cfg "DOES_NOT_EXIST".data inputArg =
        ([], Except.error MainErr.unknownGuestBinary)) ∧
    (resolveGuest [⟨"BITCOIN_BLOCK_VERIFY".data, List.replicate 32 1, [], []⟩]
        "DOES_NOT_EXIST".data = none ∧
      resolveGuest [⟨"BITCOIN_BLOCK_VERIFY".data, List.replicate 32 1, [], []⟩]
        "BITCOIN".data = none ∧
      resolveGuest [⟨"BITCOIN_BLOCK_VERIFY".data, List.replicate 32 1, [], []⟩]
        "bitcoin_block_verify".data =
        some ⟨"BITCOIN_BLOCK_VERIFY".data, List.replicate 32 1, [], []⟩) := by
  refine ⟨?_, ?_, ?_, ?_, rfl, rfl, rfl⟩
  · intro gl q1 q2 h1 h2
    simp only [resolveGuest, nameMatches, idMatches, potentialGuestImageId, h1, h2]
  · intro e q h
    exact eq_of_beq h
  · intro e q h
    refine ⟨eq_of_beq h, ?_⟩
    rw [eq_of_beq h]
    exact potentialGuestImageId_length q
  · intro gl exec dl de script cfg inputArg hgl
    have hup : toUpperChars "DOES_NOT_EXIST".data = "DOES_NOT_EXIST".data := by decide
    have hpot : potentialGuestImageId "DOES_NOT_EXIST".data = zeroImageId := by decide
    have hres : resolveGuest gl "DOES_NOT_EXIST".data = none := by
      apply List.find?_eq_none.mpr
      intro e he
      rcases hgl e he with ⟨hn, hi⟩
      simp only []
      intro hcon
      unfold nameMatches idMatches at hcon
      rw [Bool.or_eq_true] at hcon
      rcases hcon with hc | hc
      · exact hn (hup ▸ eq_of_beq hc)
      · exact hi (hpot ▸ eq_of_beq hc)
    refine ⟨hres, ?_⟩
    unfold mainDispatch
    rw [hres]

/-- C3: for a non-empty chain of 80-byte header records the guest commits
exactly the ABI encoding of the supplied height together with the digest of
the last header itself (the hash is not recomputed from anything else); and
whenever chain validation rejects the (possibly altered) headers, the guest
commits nothing at all. -/
theorem c3_guest_commits_height_and_last_header_hash
    (validate : List (List Byte) → Bool) (digest : List Byte → List Byte)
    (height : Nat) (headers : List (List Byte))
    (hne : headers ≠ []) (hlen : ∀ h ∈ headers, h.length = 80) :
    (validate headers = true →
      guestMain validate digest height headers.flatten =
        some (ethabiEncodeOutput height (digest (headers.getLast hne)))) ∧
    (validate headers = false →
      guestMain validate digest height headers.flatten = none) := by
  have hch := chunk80_flatten headers hlen
  constructor
  · intro hv
    unfold guestMain
    rw [hch]
    simp only [hv, if_true]
    rw [List.getLast?_eq_getLast headers hne]
  · intro hv
    unfold guestMain
    rw [hch]
    simp [hv]

/-- C3 witness: a one-header chain accepted by the validator commits the ABI
encoding of the height and the last header's digest. -/
theorem c3_guest_commits_witness :
    guestMain (fun _ => true) (fun _ => List.replicate 32 5) 15
        ([List.replicate 80 0] : List (List Byte)).flatten =
      some (ethabiEncodeOutput 15 (List.replicate 32 5)) :=
  (c3_guest_commits_height_and_last_header_hash (fun _ => true)
    (fun _ => List.replicate 32 5) 15 [List.replicate 80 0]
    (by simp) (by simp)).1 rfl

end BBV
